import Mathlib

/- Shallow embedding of the F1 chatbot streaming chat route: request
validation, embedding-response normalization, vector-store context
retrieval, prompt assembly, the tiered generation fallback (Groq, then
the HuggingFace model families) and the stream framer.  Strings are
modelled as `List Char`; every network call is modelled by an oracle
passed in explicitly, with `none` standing for a thrown or failed call. -/

/-- Whitespace test backing `String.prototype.trim` (the characters that
occur in chat input). -/
def isWS (c : Char) : Bool :=
  c = ' ' || c = '\t' || c = '\n' || c = '\r'

/-- `String.prototype.trim`: drop whitespace from both ends. -/
def jsTrim (s : List Char) : List Char :=
  ((s.dropWhile isWS).reverse.dropWhile isWS).reverse

/-- Role of a chat message: `'system' | 'user' | 'assistant'`. -/
inductive Role
  | system
  | user
  | assistant
deriving DecidableEq

/-- A chat message content: either a genuine string, or a non-string JSON
value carried together with its JS `toString()` and `JSON.stringify`
renderings (nullish content is not modelled: the route's `ChatMessage`
interface types `content : string`). -/
inductive Content
  | str (s : List Char)
  | nonStr (ts js : List Char)
deriving DecidableEq

/-- `content?.toString()` on a non-nullish content value. -/
def contentToStr : Content → List Char
  | .str s => s
  | .nonStr ts _ => ts

/-- `typeof msg.content === 'string' ? msg.content : JSON.stringify(msg.content)`. -/
def coerceContent : Content → List Char
  | .str s => s
  | .nonStr _ js => js

/-- One element of the incoming `messages` array. -/
structure Msg where
  role : Role
  content : Content
deriving DecidableEq

/-- A provider-ready message (an element of `groqMessages`): role plus
string content. -/
structure PMsg where
  role : Role
  content : List Char
deriving DecidableEq

/-- A JSON-ish JS value, as the embedding call may resolve with. -/
inductive JVal
  | num (q : Int)
  | str (s : List Char)
  | jsNull
  | arr (xs : List JVal)
  | obj (fields : List (List Char × JVal))

/-- The shape analysis of `getHuggingFaceEmbedding`:
an array with a number head is returned as-is; an array with an array
head yields that first element; any other array falls through the two
`Array.isArray` guards into the object branch, and `Object.values` of an
array is its element list (for the empty array, the empty list); an
object yields its values in key-iteration order; `null` fails the
`response !== null` guard and every remaining primitive fails the
`typeof response === 'object'` guard, so both reach the final fallback
and yield the empty vector. -/
def normalizeEmbedding : JVal → List JVal
  | .arr (x :: xs) =>
    match x with
    | .num _ => x :: xs
    | .arr ys => ys
    | _ => x :: xs
  | .arr [] => []
  | .obj fields => fields.map Prod.snd
  | _ => []

/-- The embedding stage as the orchestrator runs it: a thrown call
(`none`) is caught in the route's wrapper and becomes the empty vector. -/
def getEmbedding (resp : Option JVal) : List JVal :=
  match resp with
  | none => []
  | some r => normalizeEmbedding r

/-- One observable outbound call of the pipeline. -/
inductive Effect
  | embedCall
  | vectorSearch (limit : Nat)
  | tier1
  | tier2 (model : String)
deriving DecidableEq

/-- Which provider credentials are present in the environment. -/
structure Env where
  groqKey : Bool
  hfToken : Bool
deriving DecidableEq

/-- One escaped character of a frame payload: `"` becomes `\"` and a
newline becomes `\n`, mirroring
`text.replace(/"/g, ...).replace(/\n/g, ...)`; no other character is
touched. -/
def escapeChar (c : Char) : List Char :=
  if c = '"' then ['\\', '"']
  else if c = '\n' then ['\\', 'n']
  else [c]

/-- The framer's escaping applied to a whole payload. -/
def escapeText (s : List Char) : List Char :=
  (s.map escapeChar).flatten

/-- The wire envelope of one frame: the literal prefix `0:"`, the escaped
text, a closing quote and a newline. -/
def formatFrame (t : List Char) : List Char :=
  '0' :: ':' :: '"' :: (escapeText t ++ ['"', '\n'])

/-- `emit`: a no-op on the empty string, otherwise enqueues exactly one
formatted frame. -/
def emitFrames (t : List Char) : List (List Char) :=
  if t = [] then [] else [formatFrame t]

/-- The fixed slice width of `streamText`. -/
def chunkSize : Nat := 40

/-- Fuel-indexed splitter behind `chunkText` (the fuel is an upper bound
on the text length, so it never runs out). -/
def chunkTextAux : Nat → List Char → List (List Char)
  | 0, _ => []
  | _, [] => []
  | n + 1, s => s.take chunkSize :: chunkTextAux n (s.drop chunkSize)

/-- The slicing loop of `streamText`: left-to-right slices of 40
characters (the last one possibly shorter). -/
def chunkText (s : List Char) : List (List Char) :=
  chunkTextAux s.length s

/-- `streamText`: no frames on empty text, otherwise each slice is handed
to `emit` in order. -/
def streamText (text : List Char) : List (List Char) :=
  if text = [] then [] else ((chunkText text).map emitFrames).flatten

/-- The escaped text carried inside a well-formed frame: strip the `0:"`
prefix and the closing quote and newline. -/
def framePayload (f : List Char) : List Char :=
  ((f.drop 3).dropLast).dropLast

/-- The client-side inverse of the framer's escaping: `\"` back to a
quote, `\n` back to a newline, everything else kept. -/
def unescape : List Char → List Char
  | [] => []
  | [c] => [c]
  | c :: d :: rest =>
    if c = '\\' ∧ d = '"' then '"' :: unescape rest
    else if c = '\\' ∧ d = 'n' then '\n' :: unescape rest
    else c :: unescape (d :: rest)

/-- Reconstruct a text from emitted frames: unescape each payload and
concatenate in emission order. -/
def reconstruct (frames : List (List Char)) : List Char :=
  (frames.map (fun f => unescape (framePayload f))).flatten

/-- The fixed apology sentence emitted when both tiers yield empty text. -/
def apology : List Char :=
  "I couldn't generate a response right now. Please try again.".toList

/-- `generateWithGroq`: empty text without a key; otherwise the fetched
completion content, with every failure (non-2xx, thrown fetch, missing
content field) mapped to empty text. -/
def generateWithGroq (key : Bool) (resp : Option (List Char)) : List Char :=
  if key then resp.getD [] else []

/-- The causal text-generation model family, in declared order. -/
def textGenModels : List String :=
  ["bigscience/bloom-560m", "gpt2", "distilgpt2"]

/-- The text-to-text model family, in declared order. -/
def t5Models : List String :=
  ["google/flan-t5-base", "google/flan-t5-small"]

/-- All Tier 2 models in overall attempt order. -/
def allHFModels : List String := textGenModels ++ t5Models

/-- A model attempt that throws (`none`) or extracts only empty text. -/
def failsOrEmpty (o : String → Option (List Char)) (m : String) : Bool :=
  match o m with
  | none => true
  | some t => t.isEmpty

/-- One family loop of `generateWithHF`: try each model in order and
return at the first non-empty extracted text; a thrown call or an empty
result moves on to the next model.  Also records the models attempted,
in order. -/
def tryModelsTrace (o : String → Option (List Char)) :
    List String → List String × Option (List Char)
  | [] => ([], none)
  | m :: rest =>
    match o m with
    | some t =>
      if t = [] then
        let p := tryModelsTrace o rest
        (m :: p.1, p.2)
      else ([m], some t)
    | none =>
      let p := tryModelsTrace o rest
      (m :: p.1, p.2)

/-- `generateWithHF`: the text-generation family first, then the
text-to-text family; empty text when every model fails; paired with the
list of models attempted, in order. -/
def generateWithHFTrace (o : String → Option (List Char)) :
    List String × List Char :=
  match tryModelsTrace o textGenModels with
  | (tr, some t) => (tr, t)
  | (tr, none) =>
    let p := tryModelsTrace o t5Models
    (tr ++ p.1, p.2.getD [])

/-- The text `generateWithHF` resolves with. -/
def generateWithHF (o : String → Option (List Char)) : List Char :=
  (generateWithHFTrace o).2

/-- The JS rendering of a role. -/
def roleStr : Role → List Char
  | .system => "system".toList
  | .user => "user".toList
  | .assistant => "assistant".toList

/-- The fixed instruction text of the system prompt, up to and including
the line that precedes the interpolated context. -/
def sysPromptPre : List Char :=
  ("You are an AI assistant who knows everything about Formula One. Use the below context to augment what you know about Formula One racing. The context will provide you with the most recent page data from wikipedia, the official F1 website and others. If the context doesn't include the information you need answer based on your existing knowledge and don't mention the source of your information or what the context does or doesn't include. Format responses using markdown where applicable and don't return images.\n    ---------\n    START CONTEXT\n    ").toList

/-- The template text between the context and the question. -/
def sysPromptMid : List Char :=
  "\n    END CONTEXT\n    ---------\n    QUESTION: ".toList

/-- The template text after the question. -/
def sysPromptPost : List Char :=
  "\n    ---------\n    ".toList

/-- The synthesized system instruction with the delimited context and the
restated question. -/
def systemPrompt (docContext question : List Char) : List Char :=
  sysPromptPre ++ docContext ++ sysPromptMid ++ question ++ sysPromptPost

/-- One original message formatted for the downstream provider, its
non-string content coerced to a string representation. -/
def coerceMsg (m : Msg) : PMsg :=
  ⟨m.role, coerceContent m.content⟩

/-- `groqMessages`: the synthesized system message first, then the full
original conversation in order with contents coerced. -/
def groqMessages (sysP : List Char) (messages : List Msg) : List PMsg :=
  ⟨Role.system, sysP⟩ :: messages.map coerceMsg

/-- The flat `role: content` prompt handed to the HF fallback models. -/
def buildPrompt (ms : List PMsg) : List Char :=
  List.intercalate ['\n'] (ms.map fun m => roleStr m.role ++ (':' :: ' ' :: m.content))
    ++ "\nassistant:".toList

/-- JSON string escaping for the characters that occur in document
texts (backslash, quote and the common control characters). -/
def jsonEscapeChar (c : Char) : List Char :=
  if c = '\\' then ['\\', '\\']
  else if c = '"' then ['\\', '"']
  else if c = '\n' then ['\\', 'n']
  else if c = '\r' then ['\\', 'r']
  else if c = '\t' then ['\\', 't']
  else [c]

/-- A JSON string literal. -/
def jsonQuote (s : List Char) : List Char :=
  '"' :: ((s.map jsonEscapeChar).flatten ++ ['"'])

/-- `JSON.stringify(docsMap)` on the retrieved document texts. -/
def jsonStringifyDocs (docs : List (List Char)) : List Char :=
  '[' :: (List.intercalate [','] (docs.map jsonQuote) ++ [']'])

/-- The context-retrieval stage: the vector search is skipped entirely
when the embedding is empty; otherwise exactly one similarity search
with `limit: 10` is issued, and a failed query is caught, leaving the
context empty. -/
def retrieveContext (embedding : List JVal) (dbResp : Option (List (List Char))) :
    List Effect × List Char :=
  if embedding.isEmpty then ([], [])
  else
    match dbResp with
    | some docs => ([Effect.vectorSearch 10], jsonStringifyDocs docs)
    | none => ([Effect.vectorSearch 10], [])

/-- An HTTP response of the route: a JSON error body with its status, or
the framed output stream (status 200). -/
inductive HttpResponse
  | json (status : Nat) (body : List Char)
  | stream (frames : List (List Char))
deriving DecidableEq

/-- HTTP status of a response; a streaming `Response` constructed without
an explicit status is 200. -/
def statusOf : HttpResponse → Nat
  | .json s _ => s
  | .stream _ => 200

/-- The frames a response writes to the client. -/
def framesOf : HttpResponse → List (List Char)
  | .stream fs => fs
  | .json _ _ => []

/-- `JSON.stringify({ error: 'No user message provided.' })`. -/
def noUserMsgBody : List Char :=
  "\x7b\"error\":\"No user message provided.\"\x7d".toList

/-- `JSON.stringify({ error: 'Missing HF_TOKEN in environment.' })`. -/
def missingHfBody : List Char :=
  "\x7b\"error\":\"Missing HF_TOKEN in environment.\"\x7d".toList

/-- The external collaborators of one request, as response oracles; the
Groq oracle sees the assembled messages and the HF oracle sees the flat
prompt and the model name, `none` standing for a failed call. -/
structure Oracles where
  embed : Option JVal
  db : Option (List (List Char))
  groq : List PMsg → Option (List Char)
  hf : List Char → String → Option (List Char)

/-- Tier 1 of the stream body: `if (GROQ_API_KEY) text = await
generateWithGroq(...)`, attempted once at most. -/
def tier1Stage (env : Env) (groqResp : Option (List Char)) :
    List Effect × List Char :=
  if env.groqKey then ([Effect.tier1], generateWithGroq env.groqKey groqResp)
  else ([], [])

/-- Tier 2 of the stream body: `if (!text && HF_TOKEN) text = await
generateWithHF(prompt)`. -/
def tier2Stage (env : Env) (t1 : List Char)
    (o : String → Option (List Char)) : List Effect × List Char :=
  if t1 = [] ∧ env.hfToken = true then
    ((generateWithHFTrace o).1.map Effect.tier2, (generateWithHFTrace o).2)
  else ([], t1)

/-- The final write of the stream body: the apology through a single
`emit` when the text is still empty, the generated text through
`streamText` otherwise. -/
def finalFrames (text : List Char) : List (List Char) :=
  if text = [] then emitFrames apology else streamText text

/-- The body of `readableStream.start`: Tier 1 (Groq) once when its key
is present, then the HF fallback chain when the text is still empty and
the HF token is present, then the final write; paired with the
generation attempts made, in order. -/
def runStart (env : Env) (groqResp : Option (List Char))
    (o : String → Option (List Char)) : List Effect × List (List Char) :=
  ((tier1Stage env groqResp).1
      ++ (tier2Stage env (tier1Stage env groqResp).2 o).1,
   finalFrames (tier2Stage env (tier1Stage env groqResp).2 o).2)

/-- `messages?.[messages.length - 1]?.content?.toString().trim()`. -/
def latestMsg (messages : List Msg) : Option (List Char) :=
  (messages.getLast?).map (fun m => jsTrim (contentToStr m.content))

/-- The `groqMessages` list a validated request assembles: the system
prompt is synthesized from the retrieved context and the trimmed latest
message. -/
def requestGroqMessages (orc : Oracles) (messages : List Msg) (q : List Char) :
    List PMsg :=
  groqMessages
    (systemPrompt (retrieveContext (getEmbedding orc.embed) orc.db).2 q)
    messages

/-- The generation phase of a validated request: the stream body run on
the Groq response for the assembled messages and the HF oracle for the
flat prompt. -/
def requestGen (env : Env) (orc : Oracles) (messages : List Msg) (q : List Char) :
    List Effect × List (List Char) :=
  runStart env (orc.groq (requestGroqMessages orc messages q))
    (orc.hf (buildPrompt (requestGroqMessages orc messages q)))

/-- A validated request past the input check: embedding, retrieval, the
HF-token gate, then the streamed generation. -/
def POSTvalid (env : Env) (orc : Oracles) (messages : List Msg) (q : List Char) :
    List Effect × HttpResponse :=
  if env.hfToken then
    (Effect.embedCall :: ((retrieveContext (getEmbedding orc.embed) orc.db).1
        ++ (requestGen env orc messages q).1),
     .stream (requestGen env orc messages q).2)
  else
    (Effect.embedCall :: (retrieveContext (getEmbedding orc.embed) orc.db).1,
     .json 400 missingHfBody)

/-- The POST route handler with every network call replaced by its
oracle: validation, then the validated pipeline; returns the side
effects issued, in order, and the HTTP response. -/
def POST (env : Env) (orc : Oracles) (messages : List Msg) :
    List Effect × HttpResponse :=
  match latestMsg messages with
  | none => ([], .json 400 noUserMsgBody)
  | some q =>
    if q = [] then ([], .json 400 noUserMsgBody)
    else POSTvalid env orc messages q

/-- Recognizer of the Tier 1 effect. -/
def isTier1 : Effect → Bool
  | .tier1 => true
  | _ => false

/-- The Tier 2 model names among a list of effects, in order. -/
def tier2Of (effs : List Effect) : List String :=
  effs.filterMap fun e =>
    match e with
    | .tier2 m => some m
    | _ => none

/-- A collaborator set whose every call fails: no embedding, no
documents, no Groq completion, no HF generation. -/
def noopOracles : Oracles := ⟨none, none, fun _ => none, fun _ _ => none⟩

/-- An HF oracle where only the second model of the first family
answers, with the non-empty text `x`. -/
def oGpt2 : String → Option (List Char) :=
  fun m => if m = "gpt2" then some ['x'] else none

/- ### Framer lemmas -/

theorem chunkTextAux_nil (n : Nat) : chunkTextAux n [] = [] := by
  cases n <;> rfl

theorem chunkTextAux_zero (s : List Char) : chunkTextAux 0 s = [] := by
  cases s <;> rfl

theorem chunkTextAux_cons (n : Nat) (a : Char) (t : List Char) :
    chunkTextAux (n + 1) (a :: t)
      = (a :: t).take chunkSize :: chunkTextAux n ((a :: t).drop chunkSize) := rfl

theorem chunkTextAux_flatten :
    ∀ (n : Nat) (s : List Char), s.length ≤ n → (chunkTextAux n s).flatten = s := by
  intro n
  induction n with
  | zero =>
    intro s hs
    cases s with
    | nil => rfl
    | cons a t => simp at hs
  | succ n ih =>
    intro s hs
    cases s with
    | nil => rfl
    | cons a t =>
      rw [chunkTextAux_cons, List.flatten_cons, ih]
      · exact List.take_append_drop _ _
      · rw [List.length_drop]
        simp only [List.length_cons, chunkSize] at hs ⊢
        omega

theorem chunkText_flatten (s : List Char) : (chunkText s).flatten = s :=
  chunkTextAux_flatten s.length s (Nat.le_refl _)

theorem mem_chunkTextAux :
    ∀ (n : Nat) (s c : List Char), c ∈ chunkTextAux n s →
      c ≠ [] ∧ c.length ≤ chunkSize ∧ c ⊆ s := by
  intro n
  induction n with
  | zero => intro s c hc; rw [chunkTextAux_zero] at hc; cases hc
  | succ n ih =>
    intro s c hc
    cases s with
    | nil => rw [chunkTextAux_nil] at hc; cases hc
    | cons a t =>
      rw [chunkTextAux_cons] at hc
      rcases List.mem_cons.mp hc with h | h
      · subst h
        refine ⟨?_, List.length_take_le _ _, List.take_subset _ _⟩
        simp [List.take_eq_nil_iff, chunkSize]
      · obtain ⟨h1, h2, h3⟩ := ih _ _ h
        exact ⟨h1, h2, h3.trans (List.drop_subset _ _)⟩

theorem mem_chunkText (s c : List Char) (hc : c ∈ chunkText s) :
    c ≠ [] ∧ c.length ≤ chunkSize ∧ c ⊆ s :=
  mem_chunkTextAux s.length s c hc

theorem chunkTextAux_dropLast :
    ∀ (n : Nat) (s c : List Char), c ∈ (chunkTextAux n s).dropLast →
      c.length = chunkSize := by
  intro n
  induction n with
  | zero => intro s c hc; rw [chunkTextAux_zero] at hc; cases hc
  | succ n ih =>
    intro s c hc
    cases s with
    | nil => rw [chunkTextAux_nil] at hc; cases hc
    | cons a t =>
      rw [chunkTextAux_cons] at hc
      by_cases hrest : chunkTextAux n ((a :: t).drop chunkSize) = []
      · rw [hrest] at hc; cases hc
      · rw [List.dropLast_cons_of_ne_nil hrest] at hc
        rcases List.mem_cons.mp hc with h | h
        · subst h
          have hd : (a :: t).drop chunkSize ≠ [] := by
            intro hz
            exact hrest (hz ▸ chunkTextAux_nil n)
          have : chunkSize < (a :: t).length := by
            by_contra hlen
            exact hd (List.drop_eq_nil_of_le (Nat.le_of_not_lt hlen))
          rw [List.length_take]
          omega
        · exact ih _ _ h

theorem chunkText_dropLast (s c : List Char) (hc : c ∈ (chunkText s).dropLast) :
    c.length = chunkSize :=
  chunkTextAux_dropLast s.length s c hc

theorem flatten_map_emitFrames :
    ∀ l : List (List Char), (∀ c ∈ l, c ≠ []) →
      (l.map emitFrames).flatten = l.map formatFrame := by
  intro l
  induction l with
  | nil => intro _; rfl
  | cons a t ih =>
    intro h
    have ha : a ≠ [] := h a (List.mem_cons_self a t)
    simp only [List.map_cons, List.flatten_cons, emitFrames, if_neg ha]
    rw [ih fun c hc => h c (List.mem_cons_of_mem _ hc)]
    rfl

theorem streamText_eq_map (text : List Char) :
    streamText text = (chunkText text).map formatFrame := by
  by_cases h : text = []
  · subst h; rfl
  · simp only [streamText, if_neg h]
    exact flatten_map_emitFrames _ fun c hc => (mem_chunkText text c hc).1

theorem escapeText_cons (c : Char) (s : List Char) :
    escapeText (c :: s) = escapeChar c ++ escapeText s := by
  simp [escapeText]

theorem escapeChar_ne_nil (c : Char) : escapeChar c ≠ [] := by
  unfold escapeChar
  split
  · simp
  · split <;> simp

theorem escapeText_ne_nil (s : List Char) (h : s ≠ []) : escapeText s ≠ [] := by
  cases s with
  | nil => exact absurd rfl h
  | cons a t =>
    rw [escapeText_cons]
    intro hz
    rcases List.append_eq_nil.mp hz with ⟨h1, _⟩
    exact escapeChar_ne_nil a h1

theorem framePayload_formatFrame (t : List Char) :
    framePayload (formatFrame t) = escapeText t := by
  show ((('0' :: ':' :: '"' :: (escapeText t ++ ['"', '\n'])).drop 3).dropLast).dropLast
      = escapeText t
  rw [show ('0' :: ':' :: '"' :: (escapeText t ++ ['"', '\n'])).drop 3
        = escapeText t ++ ['"', '\n'] from rfl]
  rw [show escapeText t ++ ['"', '\n'] = (escapeText t ++ ['"']) ++ ['\n'] by
        rw [List.append_assoc]; rfl]
  rw [List.dropLast_concat, List.dropLast_concat]

theorem unescape_escape :
    ∀ s : List Char, '\\' ∉ s → unescape (escapeText s) = s := by
  intro s
  induction s with
  | nil => intro _; rfl
  | cons c t ih =>
    intro h
    have hc : c ≠ '\\' := fun hh => h (hh ▸ List.mem_cons_self c t)
    have ht : '\\' ∉ t := fun hh => h (List.mem_cons_of_mem _ hh)
    rw [escapeText_cons]
    by_cases h1 : c = '"'
    · subst h1
      rw [show escapeChar '"' = ['\\', '"'] from rfl]
      show unescape ('\\' :: '"' :: escapeText t) = '"' :: t
      rw [unescape, if_pos ⟨rfl, rfl⟩, ih ht]
    · by_cases h2 : c = '\n'
      · subst h2
        rw [show escapeChar '\n' = ['\\', 'n'] by simp [escapeChar]]
        show unescape ('\\' :: 'n' :: escapeText t) = '\n' :: t
        rw [unescape, if_neg (fun hp => absurd hp.2 (by decide)),
          if_pos ⟨rfl, rfl⟩, ih ht]
      · rw [show escapeChar c = [c] by simp [escapeChar, h1, h2]]
        cases hte : escapeText t with
        | nil =>
          have htn : t = [] := by
            cases t with
            | nil => rfl
            | cons a r =>
              rw [escapeText_cons] at hte
              rcases List.append_eq_nil.mp hte with ⟨hz, _⟩
              exact absurd hz (escapeChar_ne_nil a)
          subst htn
          rfl
        | cons d rest =>
          show unescape (c :: d :: rest) = c :: t
          rw [unescape, if_neg (fun hp => hc hp.1), if_neg (fun hp => hc hp.1),
            ← hte, ih ht]

theorem reconstruct_streamText (text : List Char) (h : '\\' ∉ text) :
    reconstruct (streamText text) = text := by
  rw [streamText_eq_map, reconstruct, List.map_map]
  have hmap : ∀ c ∈ chunkText text,
      (fun f => unescape (framePayload f)) (formatFrame c) = id c := by
    intro c hc
    show unescape (framePayload (formatFrame c)) = c
    rw [framePayload_formatFrame, unescape_escape]
    intro hb
    exact h ((mem_chunkText text c hc).2.2 hb)
  rw [show ((fun f => unescape (framePayload f)) ∘ formatFrame)
        = fun c => unescape (framePayload (formatFrame c)) from rfl]
  rw [List.map_congr_left hmap, List.map_id]
  exact chunkText_flatten text

/- ### Fallback-chain lemmas -/

theorem tryModelsTrace_cons (o : String → Option (List Char)) (m : String)
    (rest : List String) :
    tryModelsTrace o (m :: rest)
      = match o m with
        | some t =>
          if t = [] then
            (m :: (tryModelsTrace o rest).1, (tryModelsTrace o rest).2)
          else ([m], some t)
        | none => (m :: (tryModelsTrace o rest).1, (tryModelsTrace o rest).2) := rfl

theorem failsOrEmpty_none (o : String → Option (List Char)) (m : String)
    (h : o m = none) : failsOrEmpty o m = true := by
  unfold failsOrEmpty
  rw [h]

theorem failsOrEmpty_empty (o : String → Option (List Char)) (m : String)
    (h : o m = some []) : failsOrEmpty o m = true := by
  unfold failsOrEmpty
  rw [h]
  rfl

theorem tryModelsTrace_cons_none (o : String → Option (List Char)) (m : String)
    (rest : List String) (h : o m = none) :
    tryModelsTrace o (m :: rest)
      = (m :: (tryModelsTrace o rest).1, (tryModelsTrace o rest).2) := by
  rw [tryModelsTrace_cons, h]

theorem tryModelsTrace_cons_empty (o : String → Option (List Char)) (m : String)
    (rest : List String) (h : o m = some []) :
    tryModelsTrace o (m :: rest)
      = (m :: (tryModelsTrace o rest).1, (tryModelsTrace o rest).2) := by
  rw [tryModelsTrace_cons, h]
  simp

theorem tryModelsTrace_cons_hit (o : String → Option (List Char)) (m : String)
    (rest : List String) (t : List Char) (h : o m = some t) (ht : t ≠ []) :
    tryModelsTrace o (m :: rest) = ([m], some t) := by
  rw [tryModelsTrace_cons, h]
  exact if_neg ht

theorem tryModelsTrace_take (o : String → Option (List Char)) :
    ∀ ms : List String, ∃ k, k ≤ ms.length ∧ (tryModelsTrace o ms).1 = ms.take k := by
  intro ms
  induction ms with
  | nil => exact ⟨0, Nat.le_refl _, rfl⟩
  | cons m rest ih =>
    obtain ⟨k, hk, hkeq⟩ := ih
    cases hm : o m with
    | some t =>
      by_cases ht : t = []
      · subst ht
        rw [tryModelsTrace_cons_empty o m rest hm]
        exact ⟨k + 1, by simpa using hk, by simp [hkeq]⟩
      · rw [tryModelsTrace_cons_hit o m rest t hm ht]
        exact ⟨1, by simp, by simp⟩
    | none =>
      rw [tryModelsTrace_cons_none o m rest hm]
      exact ⟨k + 1, by simpa using hk, by simp [hkeq]⟩

theorem tryModelsTrace_dropLast (o : String → Option (List Char)) :
    ∀ ms : List String, ∀ x ∈ ((tryModelsTrace o ms).1).dropLast,
      failsOrEmpty o x = true := by
  intro ms
  induction ms with
  | nil => intro x hx; cases hx
  | cons m rest ih =>
    intro x hx
    cases hm : o m with
    | some t =>
      by_cases ht : t = []
      · subst ht
        rw [tryModelsTrace_cons_empty o m rest hm] at hx
        by_cases htr : (tryModelsTrace o rest).1 = []
        · rw [show (m :: (tryModelsTrace o rest).1, (tryModelsTrace o rest).2).1
                = m :: (tryModelsTrace o rest).1 from rfl, htr] at hx
          cases hx
        · rw [show (m :: (tryModelsTrace o rest).1, (tryModelsTrace o rest).2).1
                = m :: (tryModelsTrace o rest).1 from rfl,
            List.dropLast_cons_of_ne_nil htr] at hx
          rcases List.mem_cons.mp hx with h | h
          · subst h; exact failsOrEmpty_empty o x hm
          · exact ih x h
      · rw [tryModelsTrace_cons_hit o m rest t hm ht] at hx
        cases hx
    | none =>
      rw [tryModelsTrace_cons_none o m rest hm] at hx
      by_cases htr : (tryModelsTrace o rest).1 = []
      · rw [show (m :: (tryModelsTrace o rest).1, (tryModelsTrace o rest).2).1
              = m :: (tryModelsTrace o rest).1 from rfl, htr] at hx
        cases hx
      · rw [show (m :: (tryModelsTrace o rest).1, (tryModelsTrace o rest).2).1
              = m :: (tryModelsTrace o rest).1 from rfl,
          List.dropLast_cons_of_ne_nil htr] at hx
        rcases List.mem_cons.mp hx with h | h
        · subst h; exact failsOrEmpty_none o x hm
        · exact ih x h

theorem tryModelsTrace_none (o : String → Option (List Char)) :
    ∀ ms : List String, (tryModelsTrace o ms).2 = none →
      (tryModelsTrace o ms).1 = ms ∧ ∀ x ∈ ms, failsOrEmpty o x = true := by
  intro ms
  induction ms with
  | nil => intro _; exact ⟨rfl, by intro x hx; cases hx⟩
  | cons m rest ih =>
    intro h
    cases hm : o m with
    | some t =>
      by_cases ht : t = []
      · subst ht
        rw [tryModelsTrace_cons_empty o m rest hm] at h ⊢
        obtain ⟨h1, h2⟩ := ih h
        refine ⟨by simpa using h1, ?_⟩
        intro x hx
        rcases List.mem_cons.mp hx with hx | hx
        · subst hx; exact failsOrEmpty_empty o x hm
        · exact h2 x hx
      · rw [tryModelsTrace_cons_hit o m rest t hm ht] at h
        cases h
    | none =>
      rw [tryModelsTrace_cons_none o m rest hm] at h ⊢
      obtain ⟨h1, h2⟩ := ih h
      refine ⟨by simpa using h1, ?_⟩
      intro x hx
      rcases List.mem_cons.mp hx with hx | hx
      · subst hx; exact failsOrEmpty_none o x hm
      · exact h2 x hx

theorem tryModelsTrace_all_fail (o : String → Option (List Char)) :
    ∀ ms : List String, (∀ x ∈ ms, failsOrEmpty o x = true) →
      tryModelsTrace o ms = (ms, none) := by
  intro ms
  induction ms with
  | nil => intro _; rfl
  | cons m rest ih =>
    intro h
    have hrec := ih fun x hx => h x (List.mem_cons_of_mem _ hx)
    have hm := h m (List.mem_cons_self m rest)
    cases hom : o m with
    | some t =>
      have ht : t = [] := by
        unfold failsOrEmpty at hm
        rw [hom] at hm
        exact List.isEmpty_iff.mp hm
      subst ht
      rw [tryModelsTrace_cons_empty o m rest hom, hrec]
    | none =>
      rw [tryModelsTrace_cons_none o m rest hom, hrec]

theorem tryModelsTrace_some (o : String → Option (List Char)) :
    ∀ ms : List String, ∀ t, (tryModelsTrace o ms).2 = some t →
      t ≠ [] ∧ (tryModelsTrace o ms).1 ≠ []
        ∧ ∃ m, ((tryModelsTrace o ms).1).getLast? = some m ∧ o m = some t := by
  intro ms
  induction ms with
  | nil => intro t h; cases h
  | cons m rest ih =>
    intro t h
    cases hm : o m with
    | some u =>
      by_cases hu : u = []
      · subst hu
        rw [tryModelsTrace_cons_empty o m rest hm] at h ⊢
        obtain ⟨h1, h2, m', hm', hom'⟩ := ih t h
        refine ⟨h1, by simp, m', ?_, hom'⟩
        cases htr : (tryModelsTrace o rest).1 with
        | nil => exact absurd htr h2
        | cons a l =>
          rw [htr] at hm'
          show (m :: a :: l).getLast? = some m'
          rw [List.getLast?_cons_cons]
          exact hm'
      · rw [tryModelsTrace_cons_hit o m rest u hm hu] at h ⊢
        have htu : u = t := by injection h
        subst htu
        exact ⟨hu, by simp, m, rfl, hm⟩
    | none =>
      rw [tryModelsTrace_cons_none o m rest hm] at h ⊢
      obtain ⟨h1, h2, m', hm', hom'⟩ := ih t h
      refine ⟨h1, by simp, m', ?_, hom'⟩
      cases htr : (tryModelsTrace o rest).1 with
      | nil => exact absurd htr h2
      | cons a l =>
        rw [htr] at hm'
        show (m :: a :: l).getLast? = some m'
        rw [List.getLast?_cons_cons]
        exact hm'

theorem generateWithHFTrace_eq (o : String → Option (List Char)) :
    generateWithHFTrace o
      = match (tryModelsTrace o textGenModels).2 with
        | some t => ((tryModelsTrace o textGenModels).1, t)
        | none =>
          ((tryModelsTrace o textGenModels).1 ++ (tryModelsTrace o t5Models).1,
           ((tryModelsTrace o t5Models).2).getD []) := by
  unfold generateWithHFTrace
  cases h : tryModelsTrace o textGenModels with
  | mk tr r => cases r <;> rfl

theorem generateWithHFTrace_take (o : String → Option (List Char)) :
    ∃ k, (generateWithHFTrace o).1 = allHFModels.take k := by
  rw [generateWithHFTrace_eq]
  cases h : (tryModelsTrace o textGenModels).2 with
  | some t =>
    obtain ⟨k, hk, hkeq⟩ := tryModelsTrace_take o textGenModels
    refine ⟨k, ?_⟩
    show (tryModelsTrace o textGenModels).1 = allHFModels.take k
    rw [hkeq, allHFModels, List.take_append_of_le_length hk]
  | none =>
    obtain ⟨h1, _⟩ := tryModelsTrace_none o textGenModels h
    obtain ⟨k2, hk2, hkeq2⟩ := tryModelsTrace_take o t5Models
    refine ⟨textGenModels.length + k2, ?_⟩
    show (tryModelsTrace o textGenModels).1 ++ (tryModelsTrace o t5Models).1
        = allHFModels.take (textGenModels.length + k2)
    rw [h1, hkeq2, allHFModels, List.take_append]

theorem generateWithHFTrace_dropLast (o : String → Option (List Char)) :
    ∀ x ∈ ((generateWithHFTrace o).1).dropLast, failsOrEmpty o x = true := by
  rw [generateWithHFTrace_eq]
  cases h : (tryModelsTrace o textGenModels).2 with
  | some t => exact tryModelsTrace_dropLast o textGenModels
  | none =>
    intro x hx
    obtain ⟨h1, hall⟩ := tryModelsTrace_none o textGenModels h
    show failsOrEmpty o x = true
    by_cases h2 : (tryModelsTrace o t5Models).1 = []
    · rw [show ((tryModelsTrace o textGenModels).1 ++ (tryModelsTrace o t5Models).1,
            ((tryModelsTrace o t5Models).2).getD []).1
          = (tryModelsTrace o textGenModels).1 ++ (tryModelsTrace o t5Models).1
          from rfl, h2, List.append_nil] at hx
      exact hall x (h1 ▸ List.dropLast_subset _ hx)
    · rw [show ((tryModelsTrace o textGenModels).1 ++ (tryModelsTrace o t5Models).1,
            ((tryModelsTrace o t5Models).2).getD []).1
          = (tryModelsTrace o textGenModels).1 ++ (tryModelsTrace o t5Models).1
          from rfl, List.dropLast_append, if_neg (by simpa using h2)] at hx
      rcases List.mem_append.mp hx with hx | hx
      · exact hall x (h1 ▸ hx)
      · exact tryModelsTrace_dropLast o t5Models x hx

theorem generateWithHFTrace_all_fail (o : String → Option (List Char))
    (h : ∀ x ∈ allHFModels, failsOrEmpty o x = true) :
    generateWithHFTrace o = (allHFModels, []) := by
  have h1 : tryModelsTrace o textGenModels = (textGenModels, none) :=
    tryModelsTrace_all_fail o _ fun x hx =>
      h x (List.mem_append.mpr (Or.inl hx))
  have h2 : tryModelsTrace o t5Models = (t5Models, none) :=
    tryModelsTrace_all_fail o _ fun x hx =>
      h x (List.mem_append.mpr (Or.inr hx))
  rw [generateWithHFTrace_eq, h1, h2]
  rfl

theorem generateWithHFTrace_last (o : String → Option (List Char))
    (h : (generateWithHFTrace o).2 ≠ []) :
    ∃ m, ((generateWithHFTrace o).1).getLast? = some m
      ∧ o m = some (generateWithHFTrace o).2 := by
  rw [generateWithHFTrace_eq] at h ⊢
  cases h1 : (tryModelsTrace o textGenModels).2 with
  | some t =>
    obtain ⟨_, _, m, hm, hom⟩ := tryModelsTrace_some o textGenModels t h1
    exact ⟨m, hm, hom⟩
  | none =>
    cases h2 : (tryModelsTrace o t5Models).2 with
    | some t =>
      obtain ⟨_, htrne, m, hm, hom⟩ := tryModelsTrace_some o t5Models t h2
      refine ⟨m, ?_, ?_⟩
      · show ((tryModelsTrace o textGenModels).1
            ++ (tryModelsTrace o t5Models).1).getLast? = some m
        rw [List.getLast?_append, hm]
        rfl
      · show o m = some (((some t).getD []))
        exact hom
    | none =>
      rw [h1, h2] at h
      exact absurd rfl h

/- ### Stream-body lemmas -/

theorem count_tier1_map_tier2 (l : List String) :
    List.countP isTier1 (l.map Effect.tier2) = 0 := by
  rw [List.countP_map]
  refine List.countP_eq_zero.mpr ?_
  intro a _
  show ¬isTier1 (Effect.tier2 a) = true
  simp [isTier1]

theorem runStart_tier1_count (env : Env) (gr : Option (List Char))
    (o : String → Option (List Char)) :
    List.countP isTier1 (runStart env gr o).1 ≤ 1 := by
  show List.countP isTier1 ((tier1Stage env gr).1
      ++ (tier2Stage env (tier1Stage env gr).2 o).1) ≤ 1
  rw [List.countP_append]
  have h1 : List.countP isTier1 (tier1Stage env gr).1 ≤ 1 := by
    unfold tier1Stage
    split
    · simp [List.countP_cons, isTier1]
    · simp
  have h2 : List.countP isTier1 (tier2Stage env (tier1Stage env gr).2 o).1 = 0 := by
    unfold tier2Stage
    split
    · exact count_tier1_map_tier2 _
    · simp
  omega

theorem tier2Of_append (l1 l2 : List Effect) :
    tier2Of (l1 ++ l2) = tier2Of l1 ++ tier2Of l2 :=
  List.filterMap_append l1 l2 _

theorem tier2Of_map_tier2 (l : List String) :
    tier2Of (l.map Effect.tier2) = l := by
  unfold tier2Of
  rw [List.filterMap_map]
  induction l with
  | nil => rfl
  | cons a t ih => simpa using ih

theorem runStart_tier2_names (env : Env) (gr : Option (List Char))
    (o : String → Option (List Char)) :
    tier2Of (runStart env gr o).1 = []
      ∨ tier2Of (runStart env gr o).1 = (generateWithHFTrace o).1 := by
  have key : tier2Of (runStart env gr o).1
      = tier2Of (tier2Stage env (tier1Stage env gr).2 o).1 := by
    show tier2Of ((tier1Stage env gr).1
        ++ (tier2Stage env (tier1Stage env gr).2 o).1) = _
    rw [tier2Of_append]
    have h1 : tier2Of (tier1Stage env gr).1 = [] := by
      unfold tier1Stage
      split <;> rfl
    rw [h1, List.nil_append]
  rw [key]
  unfold tier2Stage
  split
  · exact Or.inr (tier2Of_map_tier2 _)
  · exact Or.inl rfl

/- ### Route-level lemmas -/

theorem POST_invalid (env : Env) (orc : Oracles) (messages : List Msg)
    (h : latestMsg messages = none) :
    POST env orc messages = ([], .json 400 noUserMsgBody) := by
  unfold POST
  rw [h]

theorem POST_emptyq (env : Env) (orc : Oracles) (messages : List Msg)
    (h : latestMsg messages = some []) :
    POST env orc messages = ([], .json 400 noUserMsgBody) := by
  unfold POST
  rw [h]
  exact if_pos rfl

theorem POST_valid (env : Env) (orc : Oracles) (messages : List Msg)
    (q : List Char) (h : latestMsg messages = some q) (hq : q ≠ []) :
    POST env orc messages = POSTvalid env orc messages q := by
  unfold POST
  rw [h]
  exact if_neg hq

theorem POSTvalid_noToken (env : Env) (orc : Oracles) (messages : List Msg)
    (q : List Char) (h : env.hfToken = false) :
    POSTvalid env orc messages q
      = (Effect.embedCall :: (retrieveContext (getEmbedding orc.embed) orc.db).1,
         .json 400 missingHfBody) := by
  unfold POSTvalid
  rw [h]
  simp

theorem POSTvalid_token (env : Env) (orc : Oracles) (messages : List Msg)
    (q : List Char) (h : env.hfToken = true) :
    POSTvalid env orc messages q
      = (Effect.embedCall :: ((retrieveContext (getEmbedding orc.embed) orc.db).1
            ++ (requestGen env orc messages q).1),
         .stream (requestGen env orc messages q).2) := by
  unfold POSTvalid
  rw [h]
  exact if_pos rfl

theorem latestMsg_nil : latestMsg [] = none := rfl

theorem latestMsg_getLast (messages : List Msg) (m : Msg)
    (h : messages.getLast? = some m) :
    latestMsg messages = some (jsTrim (contentToStr m.content)) := by
  unfold latestMsg
  rw [h]
  rfl

theorem runStart_all_fail (env : Env) (gr : Option (List Char))
    (o : String → Option (List Char))
    (hgroq : generateWithGroq env.groqKey gr = [])
    (hhf : ∀ m ∈ allHFModels, failsOrEmpty o m = true)
    (hhft : env.hfToken = true) :
    (runStart env gr o).2 = [formatFrame apology] := by
  have h1 : (tier1Stage env gr).2 = [] := by
    unfold tier1Stage
    split
    · exact hgroq
    · rfl
  have h2 : (tier2Stage env (tier1Stage env gr).2 o).2 = [] := by
    unfold tier2Stage
    rw [h1]
    rw [if_pos ⟨rfl, hhft⟩]
    show (generateWithHFTrace o).2 = []
    rw [generateWithHFTrace_all_fail o hhf]
  show finalFrames (tier2Stage env (tier1Stage env gr).2 o).2 = _
  rw [h2]
  show emitFrames apology = _
  unfold emitFrames
  rw [if_neg (by decide : ¬(apology = []))]

theorem mem_finalFrames (txt f : List Char) (hf : f ∈ finalFrames txt) :
    ∃ t, t ≠ [] ∧ f = formatFrame t := by
  unfold finalFrames at hf
  by_cases h : txt = []
  · rw [if_pos h] at hf
    unfold emitFrames at hf
    rw [if_neg (by decide : ¬(apology = []))] at hf
    exact ⟨apology, by decide, List.mem_singleton.mp hf⟩
  · rw [if_neg h, streamText_eq_map] at hf
    obtain ⟨c, hc, hceq⟩ := List.mem_map.mp hf
    exact ⟨c, (mem_chunkText _ _ hc).1, hceq.symm⟩

theorem runStart_frames (env : Env) (gr : Option (List Char))
    (o : String → Option (List Char)) :
    ∀ f ∈ (runStart env gr o).2, ∃ t, t ≠ [] ∧ f = formatFrame t := by
  intro f hf
  exact mem_finalFrames _ f hf

theorem POST_frames (env : Env) (orc : Oracles) (messages : List Msg) :
    ∀ f ∈ framesOf (POST env orc messages).2,
      ∃ t, t ≠ [] ∧ f = formatFrame t := by
  intro f hf
  cases hq : latestMsg messages with
  | none =>
    rw [POST_invalid env orc messages hq] at hf
    cases hf
  | some q =>
    by_cases hqe : q = []
    · subst hqe
      rw [POST_emptyq env orc messages hq] at hf
      cases hf
    · rw [POST_valid env orc messages q hq hqe] at hf
      cases hft : env.hfToken with
      | false =>
        rw [POSTvalid_noToken env orc messages q hft] at hf
        cases hf
      | true =>
        rw [POSTvalid_token env orc messages q hft] at hf
        exact runStart_frames _ _ _ f hf

/- ### Claim theorems -/

/-- C1 (counterexample): the round-trip law fails as stated for every
unescaping: the distinct texts `\n` (a backslash then `n`) and a newline
character produce identical frame sequences, because the framer escapes
quotes and newlines but not backslashes; in particular the canonical
unescaping does not recover the text `\n`. -/
theorem c1_roundtrip_counterexample :
    streamText ['\n'] = streamText ['\\', 'n']
    ∧ ['\n'] ≠ (['\\', 'n'] : List Char)
    ∧ reconstruct (streamText ['\\', 'n']) ≠ ['\\', 'n'] :=
  ⟨by decide, by decide, by decide⟩

/-- C1 (amended): for every generated text containing no backslash
character, concatenating the unescaped payloads of all emitted frames in
emission order reconstructs exactly that text. -/
theorem c1_roundtrip_amended (text : List Char) (h : '\\' ∉ text) :
    reconstruct (streamText text) = text :=
  reconstruct_streamText text h

/-- C1 (witness): the round trip at the concrete text `a"<newline>b`. -/
theorem c1_roundtrip_witness :
    reconstruct (streamText ('a' :: '"' :: '\n' :: ['b']))
      = 'a' :: '"' :: '\n' :: ['b'] :=
  c1_roundtrip_amended ('a' :: '"' :: '\n' :: ['b']) (by decide)

/-- C2: in the generation stage, Tier 1 is attempted at most once; the
Tier 2 models attempted are an order-preserving prefix of the declared
list (text-generation family first, then the text-to-text family);
every attempted model except possibly the last failed or returned empty
text; a non-empty Tier 2 result is exactly what the last attempted model
returned; and when every model fails or returns empty, Tier 2 yields
empty text. -/
theorem c2_fallback_order (env : Env) (gr : Option (List Char))
    (o : String → Option (List Char)) :
    List.countP isTier1 (runStart env gr o).1 ≤ 1
    ∧ (tier2Of (runStart env gr o).1 = []
        ∨ tier2Of (runStart env gr o).1 = (generateWithHFTrace o).1)
    ∧ (∃ k, (generateWithHFTrace o).1 = allHFModels.take k)
    ∧ (∀ m ∈ ((generateWithHFTrace o).1).dropLast, failsOrEmpty o m = true)
    ∧ ((generateWithHFTrace o).2 ≠ [] →
        ∃ m, ((generateWithHFTrace o).1).getLast? = some m
          ∧ o m = some (generateWithHFTrace o).2)
    ∧ ((∀ m ∈ allHFModels, failsOrEmpty o m = true) → generateWithHF o = []) :=
  ⟨runStart_tier1_count env gr o,
   runStart_tier2_names env gr o,
   generateWithHFTrace_take o,
   generateWithHFTrace_dropLast o,
   generateWithHFTrace_last o,
   fun h => by
     unfold generateWithHF
     rw [generateWithHFTrace_all_fail o h]⟩

/-- C2 (witness): the fallback policy evaluated on an oracle where only
the second model answers, and on an oracle where every model fails. -/
theorem c2_fallback_order_witness :
    List.countP isTier1 (runStart ⟨true, true⟩ none oGpt2).1 ≤ 1
    ∧ failsOrEmpty oGpt2 "bigscience/bloom-560m" = true
    ∧ (∃ m, ((generateWithHFTrace oGpt2).1).getLast? = some m
        ∧ oGpt2 m = some (generateWithHFTrace oGpt2).2)
    ∧ generateWithHF (fun _ => none) = [] :=
  ⟨(c2_fallback_order ⟨true, true⟩ none oGpt2).1,
   (c2_fallback_order ⟨true, true⟩ none oGpt2).2.2.2.1
     "bigscience/bloom-560m" (by decide),
   (c2_fallback_order ⟨true, true⟩ none oGpt2).2.2.2.2.1 (by decide),
   (c2_fallback_order ⟨true, true⟩ none (fun _ => none)).2.2.2.2.2
     (fun _ _ => rfl)⟩

/-- C3 (counterexample): in the all-fail run the apology is emitted as a
single frame through `emit`, not through the 40-character chunker: the
normal Stream Framer path applied to the 59-character apology would
produce two frames, so the emitted stream is not the chunked framing of
the apology. -/
theorem c3_apology_not_chunked :
    (runStart ⟨false, true⟩ none (fun _ => none)).2 = [formatFrame apology]
    ∧ streamText apology ≠ [formatFrame apology] :=
  ⟨by decide, by decide⟩

/-- C3 (amended): for every validated request in which Tier 1 is
unavailable or fails and every Tier 2 model fails, the response is a 200
stream consisting of exactly one frame carrying the apology through the
frame emitter (same envelope and escaping, but not re-chunked), and that
stream reconstructs to exactly the apology sentence. -/
theorem c3_apology_stream (env : Env) (orc : Oracles) (messages : List Msg)
    (q : List Char) (hval : latestMsg messages = some q) (hq : q ≠ [])
    (hhft : env.hfToken = true)
    (hgroq : ∀ gm, generateWithGroq env.groqKey (orc.groq gm) = [])
    (hhf : ∀ p m, failsOrEmpty (orc.hf p) m = true) :
    (POST env orc messages).2 = .stream [formatFrame apology]
    ∧ statusOf (POST env orc messages).2 = 200
    ∧ reconstruct [formatFrame apology] = apology := by
  have hrun : (requestGen env orc messages q).2 = [formatFrame apology] := by
    unfold requestGen
    exact runStart_all_fail env _ _ (hgroq _) (fun m _ => hhf _ m) hhft
  have hpost : (POST env orc messages).2 = .stream [formatFrame apology] := by
    rw [POST_valid env orc messages q hval hq,
      POSTvalid_token env orc messages q hhft]
    show HttpResponse.stream (requestGen env orc messages q).2 = _
    rw [hrun]
  exact ⟨hpost, by rw [hpost]; rfl, by decide⟩

/-- C3 (witness): the all-fail run on a concrete one-message request. -/
theorem c3_apology_stream_witness :
    (POST ⟨false, true⟩ noopOracles [⟨Role.user, Content.str ['h', 'i']⟩]).2
        = HttpResponse.stream [formatFrame apology]
    ∧ statusOf (POST ⟨false, true⟩ noopOracles
        [⟨Role.user, Content.str ['h', 'i']⟩]).2 = 200
    ∧ reconstruct [formatFrame apology] = apology :=
  c3_apology_stream ⟨false, true⟩ noopOracles
    [⟨Role.user, Content.str ['h', 'i']⟩] ['h', 'i']
    (by decide) (by decide) rfl (fun _ => rfl) (fun _ _ => rfl)

/-- C4: whenever `messages` is empty, or the last message's content
trims to the empty string, the handler returns 400 with exactly the body
`«error: No user message provided.»` and issues no embedding, retrieval
or generation effect. -/
theorem c4_validation_400 (env : Env) (orc : Oracles) (messages : List Msg)
    (h : messages = []
      ∨ ∃ m, messages.getLast? = some m ∧ jsTrim (contentToStr m.content) = []) :
    POST env orc messages = ([], .json 400 noUserMsgBody) := by
  rcases h with h | ⟨m, hm, ht⟩
  · subst h
    exact POST_invalid env orc [] latestMsg_nil
  · refine POST_emptyq env orc messages ?_
    rw [latestMsg_getLast messages m hm, ht]

/-- C4 (witness): the empty `messages` array. -/
theorem c4_validation_400_witness :
    POST ⟨true, true⟩ noopOracles [] = ([], HttpResponse.json 400 noUserMsgBody) :=
  c4_validation_400 ⟨true, true⟩ noopOracles [] (Or.inl rfl)

/-- C5 (counterexample): an array whose first element is neither a
number nor an array — here the single-element array holding the string
`a` — is not one of the three normalized shapes, yet the client returns
it non-empty (JS `Object.values` of an array is its element list)
instead of the empty vector the claim requires. -/
theorem c5_embedding_shape_counterexample :
    normalizeEmbedding (JVal.arr [JVal.str ['a']]) = [JVal.str ['a']]
    ∧ (normalizeEmbedding (JVal.arr [JVal.str ['a']])).length ≠ 0 :=
  ⟨rfl, by decide⟩

/-- C5 (amended): the Embedding Client is a total function of the
response shape: a flat numeric sequence is returned as-is, a batch
yields its first element, a key-value mapping yields its values in
iteration order, an array headed by any other value is returned as its
own element list, and the empty array, `null`, the remaining primitives
and transport errors all yield the empty vector. -/
theorem c5_embedding_shapes :
    (∀ (n : Int) (xs : List JVal),
        normalizeEmbedding (.arr (.num n :: xs)) = .num n :: xs)
    ∧ (∀ ys xs : List JVal, normalizeEmbedding (.arr (.arr ys :: xs)) = ys)
    ∧ (∀ fields, normalizeEmbedding (.obj fields) = fields.map Prod.snd)
    ∧ (∀ (s : List Char) (xs : List JVal),
        normalizeEmbedding (.arr (.str s :: xs)) = .str s :: xs)
    ∧ (∀ xs : List JVal, normalizeEmbedding (.arr (.jsNull :: xs)) = .jsNull :: xs)
    ∧ (∀ fields (xs : List JVal),
        normalizeEmbedding (.arr (.obj fields :: xs)) = .obj fields :: xs)
    ∧ normalizeEmbedding (.arr []) = []
    ∧ normalizeEmbedding .jsNull = []
    ∧ (∀ n : Int, normalizeEmbedding (.num n) = [])
    ∧ (∀ s : List Char, normalizeEmbedding (.str s) = [])
    ∧ getEmbedding none = [] :=
  ⟨fun _ _ => rfl, fun _ _ => rfl, fun _ => rfl, fun _ _ => rfl, fun _ => rfl,
   fun _ _ => rfl, rfl, rfl, fun _ => rfl, fun _ => rfl, rfl⟩

/-- C6: an empty embedding vector makes the retriever issue no
similarity search and yield empty context; a non-empty vector issues
exactly one search with limit 10; a failed query yields empty context;
and a validated request with the HF token present still answers with a
stream whatever the retrieval oracle does, so the query failure never
fails the request. -/
theorem c6_retriever (emb : List JVal) (dbResp : Option (List (List Char)))
    (env : Env) (orc : Oracles) (messages : List Msg) (q : List Char) :
    (emb = [] → retrieveContext emb dbResp = ([], []))
    ∧ (emb ≠ [] → (retrieveContext emb dbResp).1 = [Effect.vectorSearch 10])
    ∧ (emb ≠ [] → dbResp = none → (retrieveContext emb dbResp).2 = [])
    ∧ (latestMsg messages = some q → q ≠ [] → env.hfToken = true →
        ∃ fs, (POST env orc messages).2 = .stream fs) := by
  refine ⟨?_, ?_, ?_, ?_⟩
  · intro h
    subst h
    rfl
  · intro h
    unfold retrieveContext
    rw [if_neg fun hh => h (List.isEmpty_iff.mp hh)]
    cases dbResp <;> rfl
  · intro h hdb
    subst hdb
    unfold retrieveContext
    rw [if_neg fun hh => h (List.isEmpty_iff.mp hh)]
  · intro hval hq hhft
    rw [POST_valid env orc messages q hval hq,
      POSTvalid_token env orc messages q hhft]
    exact ⟨_, rfl⟩

/-- C6 (witness): the retriever on the empty vector, on a one-element
vector with a failing store, and a full request with a failing store. -/
theorem c6_retriever_witness :
    retrieveContext [] none = ([], [])
    ∧ (retrieveContext [JVal.num 1] none).1 = [Effect.vectorSearch 10]
    ∧ (retrieveContext [JVal.num 1] none).2 = []
    ∧ ∃ fs, (POST ⟨false, true⟩ noopOracles
        [⟨Role.user, Content.str ['h', 'i']⟩]).2 = HttpResponse.stream fs :=
  ⟨(c6_retriever [] none ⟨false, true⟩ noopOracles [] []).1 rfl,
   (c6_retriever [JVal.num 1] none ⟨false, true⟩ noopOracles [] []).2.1 (by simp),
   (c6_retriever [JVal.num 1] none ⟨false, true⟩ noopOracles [] []).2.2.1
     (by simp) rfl,
   (c6_retriever [] none ⟨false, true⟩ noopOracles
      [⟨Role.user, Content.str ['h', 'i']⟩] ['h', 'i']).2.2.2
     (by decide) (by decide) rfl⟩

/-- C7: each frame of `streamText` is exactly the envelope `0:"`, the
escaped slice, a closing quote and a newline; the slices concatenate
back to the text in left-to-right order; each slice is non-empty and at
most 40 characters; every slice but the last is exactly 40 characters;
and the escaping maps a quote to backslash-quote and a newline to
backslash-n. -/
theorem c7_frame_format (text : List Char) :
    streamText text
      = (chunkText text).map
          (fun c => '0' :: ':' :: '"' :: (escapeText c ++ ['"', '\n']))
    ∧ (chunkText text).flatten = text
    ∧ (∀ c ∈ chunkText text, c ≠ [] ∧ c.length ≤ 40)
    ∧ (∀ c ∈ (chunkText text).dropLast, c.length = 40)
    ∧ (∀ s, escapeText ('"' :: s) = '\\' :: '"' :: escapeText s)
    ∧ (∀ s, escapeText ('\n' :: s) = '\\' :: 'n' :: escapeText s) := by
  refine ⟨streamText_eq_map text, chunkText_flatten text, ?_, ?_, ?_, ?_⟩
  · intro c hc
    obtain ⟨h1, h2, _⟩ := mem_chunkText text c hc
    exact ⟨h1, h2⟩
  · intro c hc
    exact chunkText_dropLast text c hc
  · intro s
    rw [escapeText_cons]
    rfl
  · intro s
    rw [escapeText_cons]
    rfl

/-- C7 (witness): the chunker on a 50-character text: the slices
reassemble the text, the first slice is the full 40-character slice. -/
theorem c7_frame_format_witness :
    (chunkText (List.replicate 50 'a')).flatten = List.replicate 50 'a'
    ∧ (List.replicate 40 'a' ≠ [] ∧ (List.replicate 40 'a').length ≤ 40)
    ∧ (List.replicate 40 'a').length = 40 :=
  ⟨(c7_frame_format (List.replicate 50 'a')).2.1,
   (c7_frame_format (List.replicate 50 'a')).2.2.1
     (List.replicate 40 'a') (by decide),
   (c7_frame_format (List.replicate 50 'a')).2.2.2.1
     (List.replicate 40 'a') (by decide)⟩

/-- C8 (counterexample): with the Groq key present and the HF token
absent, a validated request is terminated with the 400 credential error
even though the Groq provider is configured and available, contradicting
the claim that a missing credential terminates only when the sole
configured provider is thereby unavailable. -/
theorem c8_hf_required_counterexample :
    (POST ⟨true, false⟩ noopOracles [⟨Role.user, Content.str ['h', 'i']⟩]).2
        = HttpResponse.json 400 missingHfBody
    ∧ (⟨true, false⟩ : Env).groqKey = true :=
  ⟨by decide, rfl⟩

/-- C8 (amended): a missing Groq key only degrades the pipeline, but the
HF token is unconditionally required: every validated request without it
is terminated with the 400 `Missing HF_TOKEN` error regardless of the
Groq credential, and every validated request with it answers with a
stream. -/
theorem c8_credential_gate (env : Env) (orc : Oracles) (messages : List Msg)
    (q : List Char) (hval : latestMsg messages = some q) (hq : q ≠ []) :
    (env.hfToken = false →
        (POST env orc messages).2 = .json 400 missingHfBody)
    ∧ (env.hfToken = true →
        ∃ fs, (POST env orc messages).2 = .stream fs) := by
  constructor
  · intro h
    rw [POST_valid env orc messages q hval hq,
      POSTvalid_noToken env orc messages q h]
  · intro h
    rw [POST_valid env orc messages q hval hq,
      POSTvalid_token env orc messages q h]
    exact ⟨_, rfl⟩

/-- C8 (witness): the same one-message request with the token absent and
with it present. -/
theorem c8_credential_gate_witness :
    (POST ⟨true, false⟩ noopOracles [⟨Role.user, Content.str ['h', 'i']⟩]).2
        = HttpResponse.json 400 missingHfBody
    ∧ ∃ fs, (POST ⟨true, true⟩ noopOracles
        [⟨Role.user, Content.str ['h', 'i']⟩]).2 = HttpResponse.stream fs :=
  ⟨(c8_credential_gate ⟨true, false⟩ noopOracles
      [⟨Role.user, Content.str ['h', 'i']⟩] ['h', 'i']
      (by decide) (by decide)).1 rfl,
   (c8_credential_gate ⟨true, true⟩ noopOracles
      [⟨Role.user, Content.str ['h', 'i']⟩] ['h', 'i']
      (by decide) (by decide)).2 rfl⟩

/-- C9 (counterexample): when the incoming conversation itself holds a
system-role message, the assembled prompt contains two system messages,
not exactly one. -/
theorem c9_duplicate_system_message :
    ((groqMessages ['p'] [⟨Role.system, Content.str ['x']⟩]).countP
        (fun m => m.role == Role.system)) = 2
    ∧ ((groqMessages ['p'] [⟨Role.system, Content.str ['x']⟩]).countP
        (fun m => m.role == Role.system)) ≠ 1 :=
  ⟨by decide, by decide⟩

/-- C9 (amended): the assembled prompt begins with the synthesized
system message and continues with the original conversation in order
with non-string content coerced; its system-message count is one more
than that of the input, so it holds exactly one system message exactly
when the input conversation holds none. -/
theorem c9_prompt_assembly (sysP : List Char) (msgs : List Msg) :
    (groqMessages sysP msgs).head? = some ⟨Role.system, sysP⟩
    ∧ (groqMessages sysP msgs).tail = msgs.map coerceMsg
    ∧ (groqMessages sysP msgs).countP (fun m => m.role == Role.system)
        = msgs.countP (fun m => m.role == Role.system) + 1
    ∧ ((∀ m ∈ msgs, m.role ≠ Role.system) →
        (groqMessages sysP msgs).countP (fun m => m.role == Role.system) = 1) := by
  have hcomp : ((fun (m : PMsg) => m.role == Role.system) ∘ coerceMsg)
      = fun (m : Msg) => m.role == Role.system := by
    funext m
    rfl
  have hcount : (groqMessages sysP msgs).countP (fun m => m.role == Role.system)
      = msgs.countP (fun m => m.role == Role.system) + 1 := by
    unfold groqMessages
    rw [List.countP_cons, List.countP_map, hcomp]
    simp
  refine ⟨rfl, rfl, hcount, ?_⟩
  intro h
  rw [hcount, List.countP_eq_zero.mpr ?_]
  intro m hm
  intro hh
  exact h m hm (by simpa using hh)

/-- C9 (witness): the assembly on a one-user-message conversation. -/
theorem c9_prompt_assembly_witness :
    (groqMessages ['p'] [⟨Role.user, Content.str ['h']⟩]).head?
        = some ⟨Role.system, ['p']⟩
    ∧ (groqMessages ['p'] [⟨Role.user, Content.str ['h']⟩]).countP
        (fun m => m.role == Role.system) = 1 :=
  ⟨(c9_prompt_assembly ['p'] [⟨Role.user, Content.str ['h']⟩]).1,
   (c9_prompt_assembly ['p'] [⟨Role.user, Content.str ['h']⟩]).2.2.2
     (by decide)⟩

/-- C10: the frame emitter is a no-op on the empty string, every slice
the chunker produces is non-empty, and every frame of every response
stream carries a non-empty escaped payload — the client never receives a
frame of the form `0:""`. -/
theorem c10_no_empty_frames (env : Env) (orc : Oracles) (messages : List Msg) :
    emitFrames [] = []
    ∧ (∀ s c : List Char, c ∈ chunkText s → c ≠ [])
    ∧ (∀ f ∈ framesOf (POST env orc messages).2,
        ∃ t, t ≠ [] ∧ f = formatFrame t ∧ escapeText t ≠ []) := by
  refine ⟨rfl, ?_, ?_⟩
  · intro s c hc
    exact (mem_chunkText s c hc).1
  · intro f hf
    obtain ⟨t, ht, hft⟩ := POST_frames env orc messages f hf
    exact ⟨t, ht, hft, escapeText_ne_nil t ht⟩

/-- C10 (witness): the apology frame of the all-fail run carries a
non-empty payload. -/
theorem c10_no_empty_frames_witness :
    ∃ t, t ≠ [] ∧ formatFrame apology = formatFrame t ∧ escapeText t ≠ [] :=
  (c10_no_empty_frames ⟨false, true⟩ noopOracles
      [⟨Role.user, Content.str ['h', 'i']⟩]).2.2 (formatFrame apology) (by decide)
